import Mathlib

/-!
Verification of the `pybee` repository's core module (`src/pybee/core.py`):
the Beeline session initializer (`beeline_session`) and the query runner
(`run_sql`).  The Python code is shallowly embedded: strings become
`List Char`, the two polling loops become recursions over a finite trace of
poll events (elapsed time at the check, and the chunk received if the
channel was ready), the filesystem becomes an association list from paths
to file contents together with a list of existing directories, and the
side effects of a call become an explicit effect list.
-/

set_option maxRecDepth 100000

namespace Pybee

/-- Coercion from a string literal to the character-list representation used
throughout the development. -/
def chars (s : String) : List Char := s.data

/-- Python whitespace test for the characters relevant to `str.strip`,
`str.lstrip` and the regex class `\s` (ASCII range, which is all the
transcripts in question contain). -/
def isPySpace (c : Char) : Bool :=
  c = ' ' || c = '\t' || c = '\n' || c = '\r' || c = '\x0b' || c = '\x0c'

/-- Embedding of Python `str.lstrip()`. -/
def pyLstrip (s : List Char) : List Char := s.dropWhile isPySpace

/-- Embedding of Python `str.strip()`. -/
def pyStrip (s : List Char) : List Char :=
  ((s.dropWhile isPySpace).reverse.dropWhile isPySpace).reverse

/-- Boolean test that `p` is a prefix of `l`. -/
def pfx : List Char → List Char → Bool
  | [], _ => true
  | _ :: _, [] => false
  | a :: as, b :: bs => a == b && pfx as bs

/-- Embedding of Python's substring containment `p in l`. -/
def containsSub (p : List Char) : List Char → Bool
  | [] => p.isEmpty
  | c :: rest => pfx p (c :: rest) || containsSub p rest

/-- Embedding of Python `l.find(p)`: index of the first occurrence of `p`
in `l` (`none` plays the role of Python's `-1`). -/
def findSub (p : List Char) : List Char → Option Nat
  | [] => if p.isEmpty then some 0 else none
  | c :: rest =>
    if pfx p (c :: rest) then some 0 else (findSub p rest).map (· + 1)

/-- Embedding of Python `output.replace(chr(13) + chr(10), chr(10))` from
`core.py` line 99: leftmost, non-overlapping replacement of CRLF by LF. -/
def normalizeCRLF : List Char → List Char
  | [] => []
  | [c] => [c]
  | c1 :: c2 :: rest =>
    if c1 = '\r' ∧ c2 = '\n' then '\n' :: normalizeCRLF rest
    else c1 :: normalizeCRLF (c2 :: rest)

/-- Decimal digit of value `d` as a character. -/
def digitChar (d : Nat) : Char := Char.ofNat (48 + d)

/-- Decimal digit string of a natural number, fuelled structural recursion. -/
def digitsAux : Nat → Nat → List Char
  | 0, _ => []
  | fuel + 1, n => if n < 10 then [digitChar n] else digitsAux fuel (n / 10) ++ [digitChar (n % 10)]

/-- Decimal digit string of a natural number. -/
def natToChars (n : Nat) : List Char := digitsAux (n + 1) n

/-- Zero padding on the left to width `w`, as `strftime` does for
the formats used by `run_sql`. -/
def padZeros (w : Nat) (s : List Char) : List Char :=
  List.replicate (w - s.length) '0' ++ s

/-! ### The row-count regular expression

`run_sql` (line 104) splits the query output at the first match of the
pattern `\n(\d{1,3}(,\d{3})*\srows selected|No rows selected|1 row selected)`
with `maxsplit=1`.  For this particular pattern greedy matching without
backtracking coincides with Python's backtracking semantics: after the
digits and after the comma groups the pattern requires a `\s`, and any
character given back by shortening the greedy digit run or dropping a full
comma group is a digit or a comma, never whitespace. -/

/-- Greedy match of `\d{1,3}` at the head of `cs`: up to three leading
digits, at least one; returns the digits and the remainder. -/
def takeDigits13 (cs : List Char) : Option (List Char × List Char) :=
  match cs with
  | c1 :: rest1 =>
    if c1.isDigit then
      match rest1 with
      | c2 :: rest2 =>
        if c2.isDigit then
          match rest2 with
          | c3 :: rest3 =>
            if c3.isDigit then some ([c1, c2, c3], rest3) else some ([c1, c2], rest2)
          | [] => some ([c1, c2], [])
        else some ([c1], rest1)
      | [] => some ([c1], [])
    else none
  | [] => none

/-- Greedy match of `(,\d{3})*` at the head of `cs`: as many comma-plus-
three-digit groups as possible; returns them and the remainder. -/
def takeCommaGroups : List Char → List Char × List Char
  | ',' :: a :: b :: c :: rest =>
    if a.isDigit && b.isDigit && c.isDigit then
      let (g, r) := takeCommaGroups rest
      (',' :: a :: b :: c :: g, r)
    else ([], ',' :: a :: b :: c :: rest)
  | cs => ([], cs)

/-- Literal match: if `lit` is a prefix of `cs`, return the remainder. -/
def matchLit (lit cs : List Char) : Option (List Char) :=
  if pfx lit cs then some (cs.drop lit.length) else none

/-- Match of the first alternative `\d{1,3}(,\d{3})*\srows selected` at the
head of `cs`; returns the matched text and the remainder. -/
def matchAlt1 (cs : List Char) : Option (List Char × List Char) :=
  match takeDigits13 cs with
  | none => none
  | some (ds, r1) =>
    let (gs, r2) := takeCommaGroups r1
    match r2 with
    | [] => none
    | s :: r3 =>
      if isPySpace s then
        match matchLit (chars "rows selected") r3 with
        | some r4 => some (ds ++ gs ++ s :: chars "rows selected", r4)
        | none => none
      else none

/-- Match of the parenthesised group of the row-count pattern at the head of
`cs` (the part after the leading LF), trying the alternatives in the
pattern's order; returns group 1's text and the remainder. -/
def matchGroup1 (cs : List Char) : Option (List Char × List Char) :=
  match matchAlt1 cs with
  | some res => some res
  | none =>
    match matchLit (chars "No rows selected") cs with
    | some r => some (chars "No rows selected", r)
    | none =>
      match matchLit (chars "1 row selected") cs with
      | some r => some (chars "1 row selected", r)
      | none => none

/-- Embedding of `re.split(pattern, s, maxsplit=1)` for the row-count
pattern: find the leftmost position where an LF followed by group 1
matches; return the text before the match, group 1, and the remainder.
`none` corresponds to a one-element split (no match). -/
def splitRow : List Char → Option (List Char × List Char × List Char)
  | [] => none
  | c :: rest =>
    match (if c = '\n' then matchGroup1 rest else none) with
    | some (g, after) => some ([], g, after)
    | none =>
      match splitRow rest with
      | some (pre, g, aft) => some (c :: pre, g, aft)
      | none => none

/-- Modelled from the spec: the clean-query collaborator `clean_sql` lives
in `pybee/utils.py`, which is not among the given sources; the spec says it
"strips comments/whitespace deterministically", modelled here as stripping
surrounding whitespace. -/
def cleanSql (s : List Char) : List Char := pyStrip s

/-- Embedding of `run_sql` lines 100-110, operating on the line-ending
normalized transcript `o` and the search needle `cleanedQ`
(`clean_sql(sql_query).strip()` in the code): locate the echoed query,
take everything after it, and unless the transcript mentions `Error`
split off the row-count line, which is returned with the LF that the
pattern consumed glued back on (line 107). -/
def parseNormalized (cleanedQ o : List Char) : List Char × List Char :=
  match findSub cleanedQ o with
  | some i =>
    if containsSub (chars "Error") o then
      (pyLstrip (o.drop (i + cleanedQ.length)), [])
    else
      let qo := pyLstrip (o.drop (i + cleanedQ.length))
      match splitRow qo with
      | some (pre, g, _) => (pre, '\n' :: g)
      | none => (qo, [])
  | none => (o, [])

/-- Embedding of the transcript parser of `run_sql` (lines 99-110): first
normalize line endings, then extract body and row-count line. -/
def parseTranscript (cleanedQ out : List Char) : List Char × List Char :=
  parseNormalized cleanedQ (normalizeCRLF out)

/-- The needle `run_sql` searches for in the transcript: the query was
already cleaned at line 78, and line 100 cleans and strips it once more. -/
def cleanedQuery (q : List Char) : List Char := pyStrip (cleanSql (cleanSql q))

/-! ### The polling loops

Both loops in `core.py` poll a shell channel: each iteration observes the
elapsed time (`time.time() - start_time`) and whether the channel has data
ready (and if so, which decoded chunk arrives).  A run of a loop is
embedded as a recursion over a finite trace of such observations; an
exhausted trace with the loop still going models the loop not having
terminated yet. -/

/-- One poll observation: elapsed time at this iteration's check, and the
chunk received if `recv_ready()` was true. -/
abbrev LoopEvent := Nat × Option (List Char)

/-- Test from `run_sql` line 92: whether a newly received chunk contains
one of the terminal markers (the code's redundant list is kept as is). -/
def hasTerminalMarker (d : List Char) : Bool :=
  containsSub (chars "rows selected") d || containsSub (chars "No rows selected") d ||
    containsSub (chars "row selected") d || containsSub (chars "Error") d

/-- How the query-dispatch loop of `run_sql` exited. -/
inductive ExitKind where
  | timeout
  | marker
deriving DecidableEq

/-- Embedding of the query-dispatch poll loop of `run_sql` (lines 84-96):
first the timeout check (only when `timeout > 0`), then, if a chunk is
ready, receive it, append it to the transcript and stop if the new chunk
contains a terminal marker.  Returns the accumulated transcript and the
exit kind, or `none` when the trace ran out with the loop still going. -/
def runLoop (tmo : Nat) (acc : List Char) : List LoopEvent → Option (List Char × ExitKind)
  | [] => none
  | (t, ch) :: evs =>
    if 0 < tmo ∧ tmo < t then some (acc, ExitKind.timeout)
    else
      match ch with
      | some d =>
        if hasTerminalMarker d then some (acc ++ d, ExitKind.marker)
        else runLoop tmo (acc ++ d) evs
      | none => runLoop tmo acc evs

/-- The session-initialization marker `beeline_session` waits for. -/
def connMarker : List Char := chars "Connecting to jdbc:fiber"

/-- How the `beeline_session` wait loop exited.  The loop exits only via
`break`; the function body contains no `raise`, so the outcome type has no
error alternative (its docstring's `Raises: TimeoutError` clause
notwithstanding), and the Python function returns `None` either way. -/
inductive SessionOutcome where
  | connected
  | timedOut
deriving DecidableEq

/-- Embedding of the wait loop of `beeline_session` (lines 43-53): if a
chunk is ready, receive and append it and stop when the new chunk contains
the connection marker; then stop silently when the elapsed time exceeds
the timeout (checked without a positivity guard). -/
def sessionLoop (tmo : Nat) (acc : List Char) :
    List LoopEvent → Option (List Char × SessionOutcome)
  | [] => none
  | (t, ch) :: evs =>
    match ch with
    | some d =>
      if containsSub connMarker d then some (acc ++ d, SessionOutcome.connected)
      else if tmo < t then some (acc ++ d, SessionOutcome.timedOut)
      else sessionLoop tmo (acc ++ d) evs
    | none =>
      if tmo < t then some (acc, SessionOutcome.timedOut)
      else sessionLoop tmo acc evs

/-! ### Configuration, queue resolution and the launch command -/

/-- Modelled from the spec: the configuration collaborator `BEELINE_CONFIG`
(in `pybee/config.py`, not among the given sources) "exposes a mapping with
keys `env_path`, `keytab_path`, `user`, `beeline_path`, `DEFAULT_QUEUE`;
absent keys default to empty string".  `none` models an absent key. -/
structure Config where
  envPath : Option (List Char)
  keytabPath : Option (List Char)
  user : Option (List Char)
  beelinePath : Option (List Char)
  defaultQueue : Option (List Char)
deriving DecidableEq

/-- Embedding of `run_sql` lines 72-73: only a caller-supplied `None`
triggers the `DEFAULT_QUEUE` lookup (with empty-string default). -/
def resolveQueue (queueName : Option (List Char)) (cfg : Config) : List Char :=
  match queueName with
  | some q => q
  | none => cfg.defaultQueue.getD []

/-- Embedding of `beeline_session` lines 31-40: the composite launch
command; the queue name is appended only when truthy (non-empty). -/
def buildBeelineCommand (cfg : Config) (queue : List Char) : List Char :=
  let base := chars "source " ++ cfg.envPath.getD [] ++ chars "; kinit -kt " ++
    cfg.keytabPath.getD [] ++ chars " " ++ cfg.user.getD [] ++ chars "; " ++
    cfg.beelinePath.getD []
  if queue.isEmpty then base ++ chars ";"
  else base ++ chars " " ++ queue ++ chars ";"

/-! ### The execution log -/

/-- Directory creation with `exist_ok=True`: insert the path if absent. -/
def ensureDir (ds : List (List Char)) (d : List Char) : List (List Char) :=
  if d ∈ ds then ds else ds ++ [d]

/-- Embedding of `os.makedirs(month_dir, exist_ok=True)` (line 120): the
`xlogs`, year and month directories are created as needed. -/
def mkdirsChain (ds : List (List Char)) (cwd y m : List Char) : List (List Char) :=
  ensureDir (ensureDir (ensureDir ds (cwd ++ chars "/xlogs"))
    (cwd ++ chars "/xlogs" ++ chars "/" ++ y))
    (cwd ++ chars "/xlogs" ++ chars "/" ++ y ++ chars "/" ++ m)

/-- Lookup of a file's content in the association-list filesystem. -/
def lookupFile (fs : List (List Char × List Char)) (p : List Char) : Option (List Char) :=
  match fs with
  | [] => none
  | (q, v) :: rest => if q = p then some v else lookupFile rest p

/-- Update (or create) a file in the association-list filesystem. -/
def setFile : List (List Char × List Char) → List Char → List Char → List (List Char × List Char)
  | [], p, v => [(p, v)]
  | (q, w) :: rest, p, v => if q = p then (p, v) :: rest else (q, w) :: setFile rest p v

/-- Embedding of `open(path, "a")` followed by writes: append to the
current content, an absent file counting as empty. -/
def appendFile (fs : List (List Char × List Char)) (p rec1 : List Char) :
    List (List Char × List Char) :=
  setFile fs p ((lookupFile fs p).getD [] ++ rec1)

/-- The year string `strftime("%Y")` for year `y`. -/
def fmtY (y : Nat) : List Char := padZeros 4 (natToChars y)

/-- The month string `strftime("%m")` for month `m`. -/
def fmtM (m : Nat) : List Char := padZeros 2 (natToChars m)

/-- The day string `strftime("%d")` for day `d`. -/
def fmtD (d : Nat) : List Char := padZeros 2 (natToChars d)

/-- Embedding of the log-file path computed in `run_sql` lines 114-122:
`<cwd>/xlogs/<YYYY>/<MM>/logs_<YYYY>_<MM>_<DD>.txt`. -/
def logPath (cwd : List Char) (y m d : Nat) : List Char :=
  cwd ++ chars "/xlogs" ++ chars "/" ++ fmtY y ++ chars "/" ++ fmtM m ++
    chars "/" ++ chars "logs_" ++ fmtY y ++ chars "_" ++ fmtM m ++ chars "_" ++
    fmtD d ++ chars ".txt"

/-- The separator line `"-" * 70`. -/
def sep70 : List Char := List.replicate 70 '-'

/-- Embedding of the record block written by `run_sql` lines 124-130, with
`ts` the timestamp string, `q` the (cleaned) query, `body`/`rows` the
parser's output. -/
def logRecord (ts q body rows : List Char) : List Char :=
  chars "\n\n" ++ sep70 ++ chars "\n" ++ ts ++ chars "\n" ++ sep70 ++ chars "\n" ++
    chars "\n" ++ q ++ chars "\n\n" ++ pyLstrip body ++ rows ++ chars "\n"

/-! ### The composed model of `run_sql` -/

/-- Observable side effects of one `run_sql` call, in program order. -/
inductive Eff where
  | openConn
  | sendCmd (c : List Char)
  | sendQuery (q : List Char)
  | alertCall
  | printOut (s : List Char)
  | logAppend (path rec1 : List Char)
  | closeConn
  | sleepHalf
deriving DecidableEq

/-- Caller-visible outcome of one `run_sql` call. -/
inductive Outcome where
  | hung
  | raised
  | returned (body rows : List Char)
deriving DecidableEq

/-- Full observation of one `run_sql` call: outcome, effect trace, and the
filesystem (directories and files) afterwards. -/
structure RunOut where
  outcome : Outcome
  effs : List Eff
  dirs : List (List Char)
  files : List (List Char × List Char)
deriving DecidableEq

/-- Embedding of `run_sql` (lines 57-146).  Environment inputs: the
configuration, a poll trace `qEvs` for the query-dispatch loop, the
current date `(y, m, d)` and timestamp string `ts`, the working directory
`cwd`, and `logOk`, which is false when the log write raises (the spec's
fatal, propagated log-write failure; the code has no handler around it, so
on that path the function neither prints nor closes the connection).  The
session-establishment wait (`beeline_session`, modelled by `sessionLoop`)
exchanges no observable data with the rest of the call: its transcript is
discarded and the buffer is drained at line 79.  Lines 132-138 only build
strings (the `display` call is commented out), so they contribute no
effect. -/
def runSql (q : List Char) (queueName : Option (List Char)) (io : Bool) (tmo : Nat)
    (logEnabled : Bool) (cfg : Config) (qEvs : List LoopEvent)
    (y m d : Nat) (ts : List Char) (cwd : List Char) (logOk : Bool)
    (dirs : List (List Char)) (files : List (List Char × List Char)) : RunOut :=
  let queue := resolveQueue queueName cfg
  let cmd := buildBeelineCommand cfg queue
  let cleaned := cleanSql q
  let effs1 := [Eff.openConn, Eff.sendCmd cmd, Eff.sendQuery (cleaned ++ chars "\n;\n")]
  match runLoop tmo [] qEvs with
  | none => ⟨Outcome.hung, effs1, dirs, files⟩
  | some (out, ex) =>
    let effs2 := effs1 ++ (match ex with
      | ExitKind.timeout => [Eff.printOut (chars "Timeout reached, exiting loop."), Eff.alertCall]
      | ExitKind.marker => [Eff.alertCall])
    let pr := parseTranscript (pyStrip (cleanSql cleaned)) out
    if logEnabled then
      let dirs1 := mkdirsChain dirs cwd (fmtY y) (fmtM m)
      let path := logPath cwd y m d
      if logOk then
        let rec1 := logRecord ts cleaned pr.1 pr.2
        let files1 := appendFile files path rec1
        let effs3 := effs2 ++ [Eff.logAppend path rec1] ++
          (if io then [Eff.printOut (pr.1 ++ pr.2)] else []) ++
          [Eff.closeConn, Eff.sleepHalf]
        ⟨Outcome.returned pr.1 pr.2, effs3, dirs1, files1⟩
      else ⟨Outcome.raised, effs2, dirs1, files⟩
    else
      let effs3 := effs2 ++ (if io then [Eff.printOut (pr.1 ++ pr.2)] else []) ++
        [Eff.closeConn, Eff.sleepHalf]
      ⟨Outcome.returned pr.1 pr.2, effs3, dirs, files⟩

/-! ### Helper lemmas about substring containment and CRLF normalization -/

/-- The list form of the CRLF sequence. -/
def crlfL : List Char := ['\r', '\n']

/-- The list form of the sequence CR CR LF, the shape on which a single
leftmost CRLF replacement manufactures a fresh CRLF. -/
def rrnL : List Char := ['\r', '\r', '\n']

/-- The list form of the error marker. -/
def errL : List Char := chars "Error"

theorem pfx_append_self : ∀ (p r : List Char), pfx p (p ++ r) = true
  | [], _ => rfl
  | a :: as, r => by simp [pfx, pfx_append_self as r]

theorem containsSub_nil_left : ∀ (l : List Char), containsSub [] l = true
  | [] => rfl
  | _ :: _ => by simp [containsSub, pfx]

theorem containsSub_of_pfx {p l : List Char} (h : pfx p l = true) :
    containsSub p l = true := by
  cases l with
  | nil =>
    cases p with
    | nil => rfl
    | cons a as => simp [pfx] at h
  | cons c rest => simp [containsSub, h]

theorem containsSub_append_right :
    ∀ (l₁ : List Char) {p l₂ : List Char}, containsSub p l₂ = true →
      containsSub p (l₁ ++ l₂) = true
  | [], _, _, h => h
  | c :: cs, p, l₂, h => by
    simp [containsSub, containsSub_append_right cs h]

theorem containsSub_middle (l p r : List Char) : containsSub p (l ++ (p ++ r)) = true :=
  containsSub_append_right l (containsSub_of_pfx (pfx_append_self p r))

theorem containsSub_tail {p : List Char} {c : Char} {l : List Char}
    (h : containsSub p (c :: l) = false) : containsSub p l = false := by
  simp only [containsSub, Bool.or_eq_false_iff] at h
  exact h.2

theorem pfx_normalizeCRLF : ∀ (p : List Char), '\r' ∉ p →
    ∀ (l : List Char), pfx p l = true → pfx p (normalizeCRLF l) = true := by
  intro p
  induction p with
  | nil => intro _ l _; rfl
  | cons a as ih =>
    intro hp l h
    cases l with
    | nil => simp [pfx] at h
    | cons b l' =>
      simp only [pfx, Bool.and_eq_true, beq_iff_eq] at h
      obtain ⟨hab, h'⟩ := h
      have har : a ≠ '\r' := fun e => hp (by rw [e]; exact List.mem_cons_self _ _)
      have has : '\r' ∉ as := fun hm => hp (List.mem_cons_of_mem _ hm)
      cases l' with
      | nil =>
        cases as with
        | nil => simp [normalizeCRLF, pfx, hab]
        | cons x xs => simp [pfx] at h'
      | cons c ls =>
        have hbr : ¬(b = '\r' ∧ c = '\n') := fun hcc => har (hab.trans hcc.1)
        simp only [normalizeCRLF]
        rw [if_neg hbr]
        simp only [pfx, Bool.and_eq_true, beq_iff_eq]
        exact ⟨hab, ih has (c :: ls) h'⟩

theorem containsSub_normalizeCRLF (p : List Char) (hp : '\r' ∉ p) :
    ∀ l, containsSub p l = true → containsSub p (normalizeCRLF l) = true
  | [] => fun h => by simpa [normalizeCRLF] using h
  | [c] => fun h => by simpa [normalizeCRLF] using h
  | c1 :: c2 :: rest => fun h => by
    have hsplit : pfx p (c1 :: c2 :: rest) = true ∨ pfx p (c2 :: rest) = true ∨
        containsSub p rest = true := by
      simpa [containsSub, Bool.or_eq_true, or_assoc] using h
    by_cases hc : c1 = '\r' ∧ c2 = '\n'
    · simp only [normalizeCRLF]
      rw [if_pos hc]
      rcases hsplit with h1 | h2 | h3
      · cases p with
        | nil => exact containsSub_nil_left _
        | cons a as =>
          exfalso
          simp only [pfx, Bool.and_eq_true, beq_iff_eq] at h1
          exact hp (by rw [h1.1, hc.1]; exact List.mem_cons_self _ _)
      · cases p with
        | nil => exact containsSub_nil_left _
        | cons a as =>
          simp only [pfx, Bool.and_eq_true, beq_iff_eq] at h2
          have has : '\r' ∉ as := fun hm => hp (List.mem_cons_of_mem _ hm)
          apply containsSub_of_pfx
          simp only [pfx, Bool.and_eq_true, beq_iff_eq]
          exact ⟨h2.1.trans hc.2, pfx_normalizeCRLF as has rest h2.2⟩
      · have := containsSub_normalizeCRLF p hp rest h3
        simp [containsSub, this]
    · simp only [normalizeCRLF]
      rw [if_neg hc]
      rcases hsplit with h1 | h2 | h3
      · cases p with
        | nil => exact containsSub_nil_left _
        | cons a as =>
          simp only [pfx, Bool.and_eq_true, beq_iff_eq] at h1
          have has : '\r' ∉ as := fun hm => hp (List.mem_cons_of_mem _ hm)
          apply containsSub_of_pfx
          simp only [pfx, Bool.and_eq_true, beq_iff_eq]
          exact ⟨h1.1, pfx_normalizeCRLF as has (c2 :: rest) h1.2⟩
      · have := containsSub_normalizeCRLF p hp (c2 :: rest) (containsSub_of_pfx h2)
        simp [containsSub, this]
      · have := containsSub_normalizeCRLF p hp (c2 :: rest)
          (by simp [containsSub, h3])
        simp [containsSub, this]

theorem normalizeCRLF_eq_self : ∀ (l : List Char), containsSub crlfL l = false →
    normalizeCRLF l = l
  | [] => fun _ => rfl
  | [_] => fun _ => rfl
  | c1 :: c2 :: rest => fun h => by
    have hparts : pfx crlfL (c1 :: c2 :: rest) = false := by
      simp only [containsSub, Bool.or_eq_false_iff] at h
      exact h.1
    have hc : ¬(c1 = '\r' ∧ c2 = '\n') := by
      intro hcc
      rw [show crlfL = ['\r', '\n'] from rfl] at hparts
      simp [pfx, hcc.1, hcc.2] at hparts
    have htail : containsSub crlfL (c2 :: rest) = false := containsSub_tail h
    simp only [normalizeCRLF]
    rw [if_neg hc, normalizeCRLF_eq_self (c2 :: rest) htail]

theorem pfx_lf_normalizeCRLF {c2 : Char} {rest : List Char} (h2 : c2 ≠ '\n')
    (h3 : ¬(c2 = '\r' ∧ pfx ['\n'] rest = true)) :
    pfx ['\n'] (normalizeCRLF (c2 :: rest)) = false := by
  have hb : ('\n' == c2) = false := by
    simp only [beq_eq_false_iff_ne, ne_eq]
    exact fun e => h2 e.symm
  cases rest with
  | nil => simp [normalizeCRLF, pfx, hb]
  | cons r rs =>
    have hcr : ¬(c2 = '\r' ∧ r = '\n') := by
      intro hcc
      exact h3 ⟨hcc.1, by simp [pfx, hcc.2]⟩
    simp only [normalizeCRLF]
    rw [if_neg hcr]
    simp [pfx, hb]

theorem no_crlf_normalizeCRLF : ∀ (l : List Char), containsSub rrnL l = false →
    containsSub crlfL (normalizeCRLF l) = false
  | [] => fun _ => by simp [normalizeCRLF, containsSub, crlfL]
  | [c] => fun _ => by simp [normalizeCRLF, containsSub, crlfL, pfx]
  | c1 :: c2 :: rest => fun h => by
    have hhead : pfx rrnL (c1 :: c2 :: rest) = false := by
      simp only [containsSub, Bool.or_eq_false_iff] at h
      exact h.1
    have htail : containsSub rrnL (c2 :: rest) = false := containsSub_tail h
    by_cases hc : c1 = '\r' ∧ c2 = '\n'
    · simp only [normalizeCRLF]
      rw [if_pos hc]
      have hres : containsSub crlfL (normalizeCRLF rest) = false :=
        no_crlf_normalizeCRLF rest (containsSub_tail htail)
      have hpf : pfx crlfL ('\n' :: normalizeCRLF rest) = false := by
        simp [crlfL, pfx]
      simp [containsSub, hpf, hres]
    · simp only [normalizeCRLF]
      rw [if_neg hc]
      have hres : containsSub crlfL (normalizeCRLF (c2 :: rest)) = false :=
        no_crlf_normalizeCRLF (c2 :: rest) htail
      have hpf : pfx crlfL (c1 :: normalizeCRLF (c2 :: rest)) = false := by
        by_cases h1r : c1 = '\r'
        · have hc2 : c2 ≠ '\n' := fun e => hc ⟨h1r, e⟩
          have h3 : ¬(c2 = '\r' ∧ pfx ['\n'] rest = true) := by
            intro hcc
            rw [show rrnL = ['\r', '\r', '\n'] from rfl] at hhead
            simp [pfx, h1r, hcc.1, hcc.2] at hhead
          have := pfx_lf_normalizeCRLF hc2 h3
          simp [crlfL, pfx, this]
        · have : ('\r' == c1) = false := by
            simp only [beq_eq_false_iff_ne, ne_eq]
            exact fun e => h1r e.symm
          simp [crlfL, pfx, this]
      simp [containsSub, hpf, hres]

theorem normalizeCRLF_idem {l : List Char} (h : containsSub rrnL l = false) :
    normalizeCRLF (normalizeCRLF l) = normalizeCRLF l :=
  normalizeCRLF_eq_self _ (no_crlf_normalizeCRLF l h)

/-! ### Helper lemmas about the poll loops and the filesystem model -/

theorem runLoop_isSome_iff (tmo : Nat) :
    ∀ (evs : List LoopEvent) (acc : List Char),
      (runLoop tmo acc evs).isSome = true ↔
        ∃ e ∈ evs, (0 < tmo ∧ tmo < e.1) ∨ ∃ d, e.2 = some d ∧ hasTerminalMarker d = true := by
  intro evs
  induction evs with
  | nil => intro acc; simp [runLoop]
  | cons e evs ih =>
    intro acc
    obtain ⟨t, ch⟩ := e
    by_cases hto : 0 < tmo ∧ tmo < t
    · constructor
      · intro _
        exact ⟨(t, ch), List.mem_cons_self _ _, Or.inl hto⟩
      · intro _
        simp [runLoop, hto]
    · cases ch with
      | none =>
        have hred : runLoop tmo acc ((t, none) :: evs) = runLoop tmo acc evs := by
          simp [runLoop, hto]
        rw [hred, ih acc]
        constructor
        · rintro ⟨e, he, hp⟩
          exact ⟨e, List.mem_cons_of_mem _ he, hp⟩
        · rintro ⟨e, he, hp⟩
          rcases List.mem_cons.mp he with rfl | he'
          · rcases hp with h1 | ⟨d, hd, _⟩
            · exact absurd h1 hto
            · exact absurd hd (by simp)
          · exact ⟨e, he', hp⟩
      | some d =>
        by_cases hm : hasTerminalMarker d = true
        · constructor
          · intro _
            exact ⟨(t, some d), List.mem_cons_self _ _, Or.inr ⟨d, rfl, hm⟩⟩
          · intro _
            simp [runLoop, hto, hm]
        · have hred : runLoop tmo acc ((t, some d) :: evs) = runLoop tmo (acc ++ d) evs := by
            simp [runLoop, hto, hm]
          rw [hred, ih (acc ++ d)]
          constructor
          · rintro ⟨e, he, hp⟩
            exact ⟨e, List.mem_cons_of_mem _ he, hp⟩
          · rintro ⟨e, he, hp⟩
            rcases List.mem_cons.mp he with rfl | he'
            · rcases hp with h1 | ⟨d', hd', hm'⟩
              · exact absurd h1 hto
              · have : d = d' := by simpa using hd'
                exact absurd (this ▸ hm') hm
            · exact ⟨e, he', hp⟩

theorem get_mem_take : ∀ (l : List LoopEvent) (i : Nat) (hi : i < l.length),
    l.get ⟨i, hi⟩ ∈ l.take (i + 1)
  | _ :: _, 0, _ => by simp
  | _ :: l, i + 1, hi => by
    simp only [List.take, List.get]
    exact List.mem_cons_of_mem _ (get_mem_take l i (by simpa using hi))

theorem ensureDir_mem (ds : List (List Char)) (d : List Char) : d ∈ ensureDir ds d := by
  by_cases h : d ∈ ds
  · simp [ensureDir, h]
  · simp [ensureDir, h]

theorem ensureDir_mono {ds : List (List Char)} {d e : List Char} (h : e ∈ ds) :
    e ∈ ensureDir ds d := by
  by_cases hd : d ∈ ds
  · simpa [ensureDir, hd] using h
  · simp [ensureDir, hd, List.mem_append]
    exact Or.inl h

theorem ensureDir_of_mem {ds : List (List Char)} {d : List Char} (h : d ∈ ds) :
    ensureDir ds d = ds := by
  simp [ensureDir, h]

theorem mkdirsChain_idem (ds : List (List Char)) (cwd y m : List Char) :
    mkdirsChain (mkdirsChain ds cwd y m) cwd y m = mkdirsChain ds cwd y m := by
  unfold mkdirsChain
  have hA : cwd ++ chars "/xlogs" ∈
      ensureDir (ensureDir (ensureDir ds (cwd ++ chars "/xlogs"))
        (cwd ++ chars "/xlogs" ++ chars "/" ++ y))
        (cwd ++ chars "/xlogs" ++ chars "/" ++ y ++ chars "/" ++ m) :=
    ensureDir_mono (ensureDir_mono (ensureDir_mem _ _))
  have hB : cwd ++ chars "/xlogs" ++ chars "/" ++ y ∈
      ensureDir (ensureDir (ensureDir ds (cwd ++ chars "/xlogs"))
        (cwd ++ chars "/xlogs" ++ chars "/" ++ y))
        (cwd ++ chars "/xlogs" ++ chars "/" ++ y ++ chars "/" ++ m) :=
    ensureDir_mono (ensureDir_mem _ _)
  have hC : cwd ++ chars "/xlogs" ++ chars "/" ++ y ++ chars "/" ++ m ∈
      ensureDir (ensureDir (ensureDir ds (cwd ++ chars "/xlogs"))
        (cwd ++ chars "/xlogs" ++ chars "/" ++ y))
        (cwd ++ chars "/xlogs" ++ chars "/" ++ y ++ chars "/" ++ m) :=
    ensureDir_mem _ _
  rw [ensureDir_of_mem hA, ensureDir_of_mem hB, ensureDir_of_mem hC]

theorem lookupFile_setFile_self :
    ∀ (fs : List (List Char × List Char)) (p v : List Char),
      lookupFile (setFile fs p v) p = some v
  | [], p, v => by simp [setFile, lookupFile]
  | (q, w) :: rest, p, v => by
    by_cases h : q = p
    · simp [setFile, lookupFile, h]
    · simp [setFile, lookupFile, h, lookupFile_setFile_self rest p v]

/-! ### The claims -/

/-- Claim C1, counterexample: on the claim's own scenario transcript the
parser invoked by `run_sql` does not return the pair claimed there — the
claimed status line is exactly the row-count line `3 rows selected`, but
the code (line 107) returns it with the LF consumed by the split pattern
glued back on the front. -/
theorem claim_C1_counterexample :
    parseTranscript (cleanedQuery (chars "select a from t"))
        (chars "select a from t\n+----+\n| a |\n+----+\n3 rows selected\n") ≠
      (chars "+----+\n| a |\n+----+", chars "3 rows selected") := by
  decide

/-- Claim C1, amended: for the scenario transcript — the echoed query
followed by the bordered block and the row-count line — the parser invoked
by `run_sql` returns the exact bordered block as body, and a status string
equal to a line feed followed by the row-count line. -/
theorem claim_C1_amended :
    parseTranscript (cleanedQuery (chars "select a from t"))
        (chars "select a from t\n+----+\n| a |\n+----+\n3 rows selected\n") =
      (chars "+----+\n| a |\n+----+", chars "\n3 rows selected") := by
  decide

/-- Claim C5, counterexample: parsing is not invariant under replacing
every CRLF with LF for every raw transcript — on a transcript containing
CR CR LF the single normalization pass performed by the parser leaves a
fresh CRLF behind, which ends up in the body, while parsing the
LF-normalized transcript does not. -/
theorem claim_C5_counterexample :
    parseTranscript (chars "Q") (chars "Q\na\r\r\nb\n3 rows selected\n") ≠
      parseTranscript (chars "Q") (normalizeCRLF (chars "Q\na\r\r\nb\n3 rows selected\n")) := by
  decide

/-- Claim C5, amended: for every raw transcript in which no CRLF
replacement can manufacture a fresh CRLF — that is, every transcript
without an occurrence of CR CR LF — parsing the transcript yields exactly
the same pair as parsing its LF-normalized equivalent. -/
theorem claim_C5_amended (q t : List Char) (h : containsSub (chars "\r\r\n") t = false) :
    parseTranscript q t = parseTranscript q (normalizeCRLF t) := by
  unfold parseTranscript
  rw [normalizeCRLF_idem h]

/-- Claim C5, witness: the amendment applied to a concrete CRLF transcript. -/
theorem claim_C5_witness :
    parseTranscript (chars "Q") (chars "Q\r\nA") =
      parseTranscript (chars "Q") (normalizeCRLF (chars "Q\r\nA")) :=
  claim_C5_amended (chars "Q") (chars "Q\r\nA") (by decide)

/-- Claim C3: the query-dispatch poll loop of `run_sql` terminates exactly
when some poll iteration either sees `timeout > 0` with the elapsed time
beyond `timeout`, or receives a chunk containing a terminal marker; and
with `timeout > 0` the loop exits no later than the first poll whose
elapsed time exceeds `timeout`, marker or no marker.  In particular, with
`timeout = 0` and no marker-bearing chunk, no finite trace makes the loop
exit. -/
theorem claim_C3 (tmo : Nat) (acc : List Char) :
    (∀ evs : List LoopEvent,
        (runLoop tmo acc evs).isSome = true ↔
          ∃ e ∈ evs, (0 < tmo ∧ tmo < e.1) ∨
            ∃ d, e.2 = some d ∧ hasTerminalMarker d = true)
    ∧ (∀ (evs : List LoopEvent) (i : Nat) (hi : i < evs.length), 0 < tmo →
        tmo < (evs.get ⟨i, hi⟩).1 → (runLoop tmo acc (evs.take (i + 1))).isSome = true) := by
  refine ⟨fun evs => runLoop_isSome_iff tmo evs acc, ?_⟩
  intro evs i hi h1 h2
  exact (runLoop_isSome_iff tmo (evs.take (i + 1)) acc).mpr
    ⟨evs.get ⟨i, hi⟩, get_mem_take evs i hi, Or.inl ⟨h1, h2⟩⟩

/-- Claim C3, witness: a trace with no marker whose second poll is past the
timeout makes the loop exit within one event past the deadline. -/
theorem claim_C3_witness :
    (runLoop 1 [] (([((2 : Nat), (none : Option (List Char)))]).take (0 + 1))).isSome = true :=
  (claim_C3 1 []).2 [(2, none)] 0 (by decide) (by decide) (by decide)

/-- Claim C6: when no received chunk contains the session-initialization
marker and some poll observes the elapsed time beyond the caller-supplied
timeout, the `beeline_session` wait loop stops with the silent timed-out
outcome — a plain `break`, not an exception (the outcome type of the
embedding has no error alternative because the function body contains no
`raise`, and the Python function returns `None` in every case). -/
theorem claim_C6 (tmo : Nat) (evs : List LoopEvent) (acc : List Char)
    (hnm : ∀ e ∈ evs, ∀ d, e.2 = some d → containsSub connMarker d = false)
    (hex : ∃ e ∈ evs, tmo < e.1) :
    ∃ out, sessionLoop tmo acc evs = some (out, SessionOutcome.timedOut) := by
  induction evs generalizing acc with
  | nil => simp at hex
  | cons e evs ih =>
    obtain ⟨t, ch⟩ := e
    cases ch with
    | some d =>
      have hm : containsSub connMarker d = false :=
        hnm (t, some d) (List.mem_cons_self _ _) d rfl
      by_cases hto : tmo < t
      · exact ⟨acc ++ d, by simp [sessionLoop, hm, hto]⟩
      · rcases hex with ⟨e', he', ht'⟩
        rcases List.mem_cons.mp he' with rfl | he''
        · exact absurd ht' hto
        · have hred : sessionLoop tmo acc ((t, some d) :: evs) =
              sessionLoop tmo (acc ++ d) evs := by
            simp [sessionLoop, hm, hto]
          rw [hred]
          exact ih (acc ++ d) (fun e he => hnm e (List.mem_cons_of_mem _ he)) ⟨e', he'', ht'⟩
    | none =>
      by_cases hto : tmo < t
      · exact ⟨acc, by simp [sessionLoop, hto]⟩
      · rcases hex with ⟨e', he', ht'⟩
        rcases List.mem_cons.mp he' with rfl | he''
        · exact absurd ht' hto
        · have hred : sessionLoop tmo acc ((t, none) :: evs) = sessionLoop tmo acc evs := by
            simp [sessionLoop, hto]
          rw [hred]
          exact ih acc (fun e he => hnm e (List.mem_cons_of_mem _ he)) ⟨e', he'', ht'⟩

/-- Claim C6, witness: with the default ten-unit timeout and a marker-free
trace whose second poll is past it, the session wait stops timed out. -/
theorem claim_C6_witness :
    ∃ out, sessionLoop 10 [] [(3, some (chars "banner")), (11, none)] =
      some (out, SessionOutcome.timedOut) :=
  claim_C6 10 [(3, some (chars "banner")), (11, none)] []
    (by
      intro e he d hd
      rcases List.mem_cons.mp he with rfl | he2
      · cases hd
        decide
      · rcases List.mem_cons.mp he2 with rfl | he3
        · cases hd
        · cases he3)
    ⟨(11, none), by simp, by decide⟩

/-- Claim C7: with a caller-supplied queue of `None` and `DEFAULT_QUEUE`
configured as `adhoc`, the resolved queue is `adhoc` and the composite
launch command built by the session initializer contains `adhoc`; and
queue resolution takes the caller-supplied value when there is one, else
the configured default, else the empty string. -/
theorem claim_C7 (cfg cfg' : Config) (h : cfg.defaultQueue = some (chars "adhoc")) :
    resolveQueue none cfg = chars "adhoc" ∧
    containsSub (chars "adhoc") (buildBeelineCommand cfg (resolveQueue none cfg)) = true ∧
    (∀ qn, resolveQueue (some qn) cfg' = qn) ∧
    (cfg'.defaultQueue = none → resolveQueue none cfg' = []) := by
  have h1 : resolveQueue none cfg = chars "adhoc" := by simp [resolveQueue, h]
  refine ⟨h1, ?_, fun qn => rfl, fun h' => by simp [resolveQueue, h']⟩
  rw [h1]
  have hne : (chars "adhoc").isEmpty = false := by decide
  simp only [buildBeelineCommand, hne, Bool.false_eq_true, if_false]
  rw [List.append_assoc]
  exact containsSub_middle _ _ _

/-- Claim C7, witness: the theorem at a concrete configuration. -/
theorem claim_C7_witness :
    resolveQueue none ⟨none, none, none, none, some (chars "adhoc")⟩ = chars "adhoc" ∧
    containsSub (chars "adhoc")
      (buildBeelineCommand ⟨none, none, none, none, some (chars "adhoc")⟩
        (resolveQueue none ⟨none, none, none, none, some (chars "adhoc")⟩)) = true :=
  ⟨(claim_C7 ⟨none, none, none, none, some (chars "adhoc")⟩
      ⟨none, none, none, none, some (chars "adhoc")⟩ rfl).1,
    (claim_C7 ⟨none, none, none, none, some (chars "adhoc")⟩
      ⟨none, none, none, none, some (chars "adhoc")⟩ rfl).2.1⟩

/-- Claim C10: a caller-supplied empty queue string is not replaced by the
configured default (only `None` triggers the lookup), and the launch
command is then built without any queue argument, in the no-queue form. -/
theorem claim_C10 (cfg : Config) :
    resolveQueue (some []) cfg = [] ∧
    buildBeelineCommand cfg (resolveQueue (some []) cfg) =
      chars "source " ++ cfg.envPath.getD [] ++ chars "; kinit -kt " ++
        cfg.keytabPath.getD [] ++ chars " " ++ cfg.user.getD [] ++ chars "; " ++
        cfg.beelinePath.getD [] ++ chars ";" := by
  exact ⟨rfl, by simp [buildBeelineCommand, resolveQueue]⟩

/-! ### Reduction helpers for `runSql` -/

theorem runSql_outcome_logOk (q : List Char) (qn : Option (List Char)) (io : Bool)
    (tmo : Nat) (cfg : Config) (qEvs : List LoopEvent) (y m d : Nat)
    (ts cwd : List Char) (dirs : List (List Char)) (files : List (List Char × List Char))
    (out : List Char) (ex : ExitKind) (hl : runLoop tmo [] qEvs = some (out, ex)) :
    (runSql q qn io tmo true cfg qEvs y m d ts cwd true dirs files).outcome =
      Outcome.returned (parseTranscript (pyStrip (cleanSql (cleanSql q))) out).1
        (parseTranscript (pyStrip (cleanSql (cleanSql q))) out).2 := by
  simp [runSql, hl]

theorem runSql_files_logOk (q : List Char) (qn : Option (List Char)) (io : Bool)
    (tmo : Nat) (cfg : Config) (qEvs : List LoopEvent) (y m d : Nat)
    (ts cwd : List Char) (dirs : List (List Char)) (files : List (List Char × List Char))
    (out : List Char) (ex : ExitKind) (hl : runLoop tmo [] qEvs = some (out, ex)) :
    (runSql q qn io tmo true cfg qEvs y m d ts cwd true dirs files).files =
      appendFile files (logPath cwd y m d)
        (logRecord ts (cleanSql q)
          (parseTranscript (pyStrip (cleanSql (cleanSql q))) out).1
          (parseTranscript (pyStrip (cleanSql (cleanSql q))) out).2) := by
  simp [runSql, hl]

theorem runSql_dirs_logOk (q : List Char) (qn : Option (List Char)) (io : Bool)
    (tmo : Nat) (cfg : Config) (qEvs : List LoopEvent) (y m d : Nat)
    (ts cwd : List Char) (dirs : List (List Char)) (files : List (List Char × List Char))
    (out : List Char) (ex : ExitKind) (hl : runLoop tmo [] qEvs = some (out, ex)) :
    (runSql q qn io tmo true cfg qEvs y m d ts cwd true dirs files).dirs =
      mkdirsChain dirs cwd (fmtY y) (fmtM m) := by
  simp [runSql, hl]

/-- Claim C2, counterexample: the returned status line is not always empty
on the timeout exit.  With `timeout = 1`, a marker split across two chunks
(`... 3 rows` then ` selected`) never triggers the marker exit, the third
poll times the loop out, and the parser still finds the row-count line in
the accumulated partial transcript, so `run_sql` returns a non-empty
status line. -/
theorem claim_C2_counterexample :
    runLoop 1 [] [(0, some (chars "select a\nx\n3 rows")), (0, some (chars " selected")),
        (2, none)] =
      some (chars "select a\nx\n3 rows selected", ExitKind.timeout) ∧
    (runSql (chars "select a") none false 1 false ⟨none, none, none, none, none⟩
        [(0, some (chars "select a\nx\n3 rows")), (0, some (chars " selected")), (2, none)]
        2026 10 12 (chars "ts") (chars "/w") true [] []).outcome =
      Outcome.returned (chars "x") (chars "\n3 rows selected") ∧
    chars "\n3 rows selected" ≠ [] := by
  exact ⟨by decide, by decide, by decide⟩

/-- Claim C2, amended: a transcript containing `Error` makes the parser
skip the row-count split, so the returned status line is empty; and the
timeout exit is likewise a normal return, carrying the ordinary parse of
the partial transcript — whose status line is empty unless the row-count
pattern already matches the accumulated text. -/
theorem claim_C2_amended :
    (∀ needle out, containsSub (chars "Error") out = true →
      (parseTranscript needle out).2 = []) ∧
    (∀ (q : List Char) (qn : Option (List Char)) (io : Bool) (tmo : Nat) (cfg : Config)
        (qEvs : List LoopEvent) (y m d : Nat) (ts cwd : List Char)
        (dirs : List (List Char)) (files : List (List Char × List Char)) (out : List Char),
      runLoop tmo [] qEvs = some (out, ExitKind.timeout) →
      (runSql q qn io tmo true cfg qEvs y m d ts cwd true dirs files).outcome =
        Outcome.returned (parseTranscript (pyStrip (cleanSql (cleanSql q))) out).1
          (parseTranscript (pyStrip (cleanSql (cleanSql q))) out).2) := by
  constructor
  · intro needle out h
    have hn : containsSub (chars "Error") (normalizeCRLF out) = true :=
      containsSub_normalizeCRLF errL (by decide) out h
    unfold parseTranscript parseNormalized
    cases hf : findSub needle (normalizeCRLF out) with
    | none => simp [hf]
    | some i => simp [hf, hn]
  · intro q qn io tmo cfg qEvs y m d ts cwd dirs files out hl
    exact runSql_outcome_logOk q qn io tmo cfg qEvs y m d ts cwd dirs files out
      ExitKind.timeout hl

/-- Claim C2, witness: the amendment's two parts at concrete inputs. -/
theorem claim_C2_witness :
    (parseTranscript (chars "Q") (chars "xError")).2 = [] ∧
    (runSql (chars "q") none false 1 true ⟨none, none, none, none, none⟩ [(2, none)]
        2026 10 12 (chars "ts") (chars "/w") true [] []).outcome =
      Outcome.returned
        (parseTranscript (pyStrip (cleanSql (cleanSql (chars "q")))) []).1
        (parseTranscript (pyStrip (cleanSql (cleanSql (chars "q")))) []).2 :=
  ⟨claim_C2_amended.1 (chars "Q") (chars "xError") (by decide),
    claim_C2_amended.2 (chars "q") none false 1 ⟨none, none, none, none, none⟩ [(2, none)]
      2026 10 12 (chars "ts") (chars "/w") [] [] [] (by decide)⟩

/-- Claim C4, counterexample: the connection is not closed on every exit
path.  `run_sql` has no `try/finally` around the work between
`ssh_connection()` (line 75) and `ssh_client.close()` (line 143): when the
log write raises (the spec's propagated fatal log failure), the call
propagates without reaching the close, as this concrete run shows. -/
theorem claim_C4_counterexample :
    (runSql (chars "select 1") none false 0 true ⟨none, none, none, none, none⟩
        [(0, some (chars "select 1\n1 row selected"))]
        2026 10 12 (chars "ts") (chars "/w") false [] []).outcome = Outcome.raised ∧
    Eff.closeConn ∉
      (runSql (chars "select 1") none false 0 true ⟨none, none, none, none, none⟩
        [(0, some (chars "select 1\n1 row selected"))]
        2026 10 12 (chars "ts") (chars "/w") false [] []).effs := by
  exact ⟨by decide, by decide⟩

/-- Claim C4, amended: on every exit path of `run_sql` on which the call
returns — the timeout exit and the `Error`-marker exit included, i.e. any
terminating poll trace, with logging disabled or the log write succeeding —
the transport connection is closed before the return; on the path where
the log write raises and propagates, it is not closed. -/
theorem claim_C4_amended (q : List Char) (qn : Option (List Char)) (io : Bool)
    (tmo : Nat) (logEnabled : Bool) (cfg : Config) (qEvs : List LoopEvent)
    (y m d : Nat) (ts cwd : List Char) (logOk : Bool) (dirs : List (List Char))
    (files : List (List Char × List Char)) (out : List Char) (ex : ExitKind)
    (hl : runLoop tmo [] qEvs = some (out, ex)) :
    ((logEnabled = false ∨ logOk = true) →
      Eff.closeConn ∈
        (runSql q qn io tmo logEnabled cfg qEvs y m d ts cwd logOk dirs files).effs ∧
      ∃ b r, (runSql q qn io tmo logEnabled cfg qEvs y m d ts cwd logOk dirs files).outcome =
        Outcome.returned b r) ∧
    (logEnabled = true → logOk = false →
      Eff.closeConn ∉
        (runSql q qn io tmo logEnabled cfg qEvs y m d ts cwd logOk dirs files).effs ∧
      (runSql q qn io tmo logEnabled cfg qEvs y m d ts cwd logOk dirs files).outcome =
        Outcome.raised) := by
  constructor
  · rintro (rfl | rfl)
    · cases ex <;> cases io <;> simp [runSql, hl]
    · cases logEnabled <;> cases ex <;> cases io <;> simp [runSql, hl]
  · rintro rfl rfl
    cases ex <;> cases io <;> simp [runSql, hl]

/-- Claim C4, witness: the amendment on a concrete terminating run, normal
path. -/
theorem claim_C4_witness :
    Eff.closeConn ∈
      (runSql (chars "select 1") none false 0 false ⟨none, none, none, none, none⟩
        [(0, some (chars "select 1\n1 row selected"))]
        2026 10 12 (chars "ts") (chars "/w") true [] []).effs ∧
    ∃ b r, (runSql (chars "select 1") none false 0 false ⟨none, none, none, none, none⟩
        [(0, some (chars "select 1\n1 row selected"))]
        2026 10 12 (chars "ts") (chars "/w") true [] []).outcome = Outcome.returned b r :=
  (claim_C4_amended (chars "select 1") none false 0 false ⟨none, none, none, none, none⟩
      [(0, some (chars "select 1\n1 row selected"))]
      2026 10 12 (chars "ts") (chars "/w") true [] []
      (chars "select 1\n1 row selected") ExitKind.marker (by decide)).1 (Or.inl rfl)

/-- Claim C9, counterexample: the record block appended by `run_sql` does
not contain the query text exactly as supplied by the caller: line 78
replaces the query by `clean_sql(sql_query)` before anything is logged, so
for the caller-supplied text `select 1 ` (trailing blank) the appended
record contains only the cleaned `select 1` and the original text occurs
nowhere in it. -/
theorem claim_C9_counterexample :
    lookupFile
        (runSql (chars "select 1 ") none false 0 true ⟨none, none, none, none, none⟩
          [(0, some (chars "select 1\nx\n1 row selected"))]
          2026 10 12 (chars "2026-10-12 00:00:00") (chars "/w") true [] []).files
        (logPath (chars "/w") 2026 10 12) =
      some (logRecord (chars "2026-10-12 00:00:00") (chars "select 1") (chars "x")
        (chars "\n1 row selected")) ∧
    containsSub (chars "select 1 ")
      (logRecord (chars "2026-10-12 00:00:00") (chars "select 1") (chars "x")
        (chars "\n1 row selected")) = false := by
  exact ⟨by decide, by decide⟩

/-- Claim C9, amended: for every terminating run with logging enabled and
the log write succeeding, the content appended to the log file is, in
order: a separator line, the timestamp, another separator, a blank line,
the query text as normalized by the clean step (not the caller's exact
text), a blank line, the left-stripped parsed body, and the status string
(which, when present, carries its own leading line break), ending in a
line break — the block itself being preceded by two line breaks. -/
theorem claim_C9_amended (q : List Char) (qn : Option (List Char)) (io : Bool)
    (tmo : Nat) (cfg : Config) (qEvs : List LoopEvent) (y m d : Nat)
    (ts cwd : List Char) (dirs : List (List Char)) (files : List (List Char × List Char))
    (out : List Char) (ex : ExitKind) (hl : runLoop tmo [] qEvs = some (out, ex)) :
    lookupFile (runSql q qn io tmo true cfg qEvs y m d ts cwd true dirs files).files
        (logPath cwd y m d) =
      some ((lookupFile files (logPath cwd y m d)).getD [] ++
        (chars "\n\n" ++ sep70 ++ chars "\n" ++ ts ++ chars "\n" ++ sep70 ++ chars "\n" ++
          chars "\n" ++ cleanSql q ++ chars "\n\n" ++
          pyLstrip (parseTranscript (pyStrip (cleanSql (cleanSql q))) out).1 ++
          (parseTranscript (pyStrip (cleanSql (cleanSql q))) out).2 ++ chars "\n")) := by
  rw [runSql_files_logOk q qn io tmo cfg qEvs y m d ts cwd dirs files out ex hl]
  unfold appendFile
  rw [lookupFile_setFile_self]
  rfl

/-- Claim C9, witness: the amendment on a concrete run. -/
theorem claim_C9_witness :
    lookupFile
        (runSql (chars "select 1 ") none false 0 true ⟨none, none, none, none, none⟩
          [(0, some (chars "select 1\nx\n1 row selected"))]
          2026 10 12 (chars "2026-10-12 00:00:00") (chars "/w") true [] []).files
        (logPath (chars "/w") 2026 10 12) =
      some ((lookupFile [] (logPath (chars "/w") 2026 10 12)).getD [] ++
        (chars "\n\n" ++ sep70 ++ chars "\n" ++ chars "2026-10-12 00:00:00" ++ chars "\n" ++
          sep70 ++ chars "\n" ++ chars "\n" ++ cleanSql (chars "select 1 ") ++ chars "\n\n" ++
          pyLstrip (parseTranscript
            (pyStrip (cleanSql (cleanSql (chars "select 1 "))))
            (chars "select 1\nx\n1 row selected")).1 ++
          (parseTranscript (pyStrip (cleanSql (cleanSql (chars "select 1 "))))
            (chars "select 1\nx\n1 row selected")).2 ++ chars "\n")) :=
  claim_C9_amended (chars "select 1 ") none false 0 ⟨none, none, none, none, none⟩
    [(0, some (chars "select 1\nx\n1 row selected"))]
    2026 10 12 (chars "2026-10-12 00:00:00") (chars "/w") [] []
    (chars "select 1\nx\n1 row selected") ExitKind.marker (by decide)

/-- Claim C8: with logging enabled, the log record is appended to the file
`<cwd>/xlogs/<YYYY>/<MM>/logs_<YYYY>_<MM>_<DD>.txt`; across two sequential
terminating calls on the same day the two record blocks are appended, in
order and non-overlapping, to the same file, whose prior content is
preserved as a prefix and whose byte length is non-decreasing, and the
second call's directory creation is idempotent (it changes nothing). -/
theorem claim_C8 (q1 q2 : List Char) (qn1 qn2 : Option (List Char)) (io1 io2 : Bool)
    (tmo1 tmo2 : Nat) (cfg1 cfg2 : Config) (evs1 evs2 : List LoopEvent)
    (out1 out2 : List Char) (ex1 ex2 : ExitKind) (y m d : Nat)
    (ts1 ts2 cwd : List Char) (dirs : List (List Char))
    (files : List (List Char × List Char))
    (hl1 : runLoop tmo1 [] evs1 = some (out1, ex1))
    (hl2 : runLoop tmo2 [] evs2 = some (out2, ex2)) :
    logPath cwd y m d =
      cwd ++ chars "/xlogs" ++ chars "/" ++ fmtY y ++ chars "/" ++ fmtM m ++ chars "/" ++
        chars "logs_" ++ fmtY y ++ chars "_" ++ fmtM m ++ chars "_" ++ fmtD d ++
        chars ".txt" ∧
    lookupFile (runSql q2 qn2 io2 tmo2 true cfg2 evs2 y m d ts2 cwd true
        (runSql q1 qn1 io1 tmo1 true cfg1 evs1 y m d ts1 cwd true dirs files).dirs
        (runSql q1 qn1 io1 tmo1 true cfg1 evs1 y m d ts1 cwd true dirs files).files).files
      (logPath cwd y m d) =
      some ((lookupFile files (logPath cwd y m d)).getD [] ++
        logRecord ts1 (cleanSql q1)
          (parseTranscript (pyStrip (cleanSql (cleanSql q1))) out1).1
          (parseTranscript (pyStrip (cleanSql (cleanSql q1))) out1).2 ++
        logRecord ts2 (cleanSql q2)
          (parseTranscript (pyStrip (cleanSql (cleanSql q2))) out2).1
          (parseTranscript (pyStrip (cleanSql (cleanSql q2))) out2).2) ∧
    ((lookupFile files (logPath cwd y m d)).getD []).length ≤
      ((lookupFile (runSql q1 qn1 io1 tmo1 true cfg1 evs1 y m d ts1 cwd true dirs
        files).files (logPath cwd y m d)).getD []).length ∧
    ((lookupFile (runSql q1 qn1 io1 tmo1 true cfg1 evs1 y m d ts1 cwd true dirs
        files).files (logPath cwd y m d)).getD []).length ≤
      ((lookupFile (runSql q2 qn2 io2 tmo2 true cfg2 evs2 y m d ts2 cwd true
        (runSql q1 qn1 io1 tmo1 true cfg1 evs1 y m d ts1 cwd true dirs files).dirs
        (runSql q1 qn1 io1 tmo1 true cfg1 evs1 y m d ts1 cwd true dirs files).files).files
        (logPath cwd y m d)).getD []).length ∧
    (runSql q2 qn2 io2 tmo2 true cfg2 evs2 y m d ts2 cwd true
        (runSql q1 qn1 io1 tmo1 true cfg1 evs1 y m d ts1 cwd true dirs files).dirs
        (runSql q1 qn1 io1 tmo1 true cfg1 evs1 y m d ts1 cwd true dirs files).files).dirs =
      (runSql q1 qn1 io1 tmo1 true cfg1 evs1 y m d ts1 cwd true dirs files).dirs := by
  have hf1 := runSql_files_logOk q1 qn1 io1 tmo1 cfg1 evs1 y m d ts1 cwd dirs files
    out1 ex1 hl1
  have hd1 := runSql_dirs_logOk q1 qn1 io1 tmo1 cfg1 evs1 y m d ts1 cwd dirs files
    out1 ex1 hl1
  have hf2 := runSql_files_logOk q2 qn2 io2 tmo2 cfg2 evs2 y m d ts2 cwd
    (runSql q1 qn1 io1 tmo1 true cfg1 evs1 y m d ts1 cwd true dirs files).dirs
    (runSql q1 qn1 io1 tmo1 true cfg1 evs1 y m d ts1 cwd true dirs files).files
    out2 ex2 hl2
  have hd2 := runSql_dirs_logOk q2 qn2 io2 tmo2 cfg2 evs2 y m d ts2 cwd
    (runSql q1 qn1 io1 tmo1 true cfg1 evs1 y m d ts1 cwd true dirs files).dirs
    (runSql q1 qn1 io1 tmo1 true cfg1 evs1 y m d ts1 cwd true dirs files).files
    out2 ex2 hl2
  have hlook1 : lookupFile
      (runSql q1 qn1 io1 tmo1 true cfg1 evs1 y m d ts1 cwd true dirs files).files
      (logPath cwd y m d) =
      some ((lookupFile files (logPath cwd y m d)).getD [] ++
        logRecord ts1 (cleanSql q1)
          (parseTranscript (pyStrip (cleanSql (cleanSql q1))) out1).1
          (parseTranscript (pyStrip (cleanSql (cleanSql q1))) out1).2) := by
    rw [hf1]
    unfold appendFile
    rw [lookupFile_setFile_self]
  have hlook2 : lookupFile (runSql q2 qn2 io2 tmo2 true cfg2 evs2 y m d ts2 cwd true
      (runSql q1 qn1 io1 tmo1 true cfg1 evs1 y m d ts1 cwd true dirs files).dirs
      (runSql q1 qn1 io1 tmo1 true cfg1 evs1 y m d ts1 cwd true dirs files).files).files
      (logPath cwd y m d) =
      some ((lookupFile files (logPath cwd y m d)).getD [] ++
        logRecord ts1 (cleanSql q1)
          (parseTranscript (pyStrip (cleanSql (cleanSql q1))) out1).1
          (parseTranscript (pyStrip (cleanSql (cleanSql q1))) out1).2 ++
        logRecord ts2 (cleanSql q2)
          (parseTranscript (pyStrip (cleanSql (cleanSql q2))) out2).1
          (parseTranscript (pyStrip (cleanSql (cleanSql q2))) out2).2) := by
    rw [hf2]
    unfold appendFile
    rw [lookupFile_setFile_self, hlook1]
    rfl
  refine ⟨rfl, hlook2, ?_, ?_, ?_⟩
  · rw [hlook1]
    simp [List.length_append]
  · rw [hlook1, hlook2]
    simp [List.length_append]
  · rw [hd2, hd1]
    exact mkdirsChain_idem dirs cwd (fmtY y) (fmtM m)

/-- Claim C8, witness: two concrete same-day runs; the second call's
directory creation changes nothing. -/
theorem claim_C8_witness :
    (runSql (chars "select 2") none false 0 true ⟨none, none, none, none, none⟩
        [(0, some (chars "select 2\ny\n1 row selected"))] 2026 10 12 (chars "t2")
        (chars "/w") true
        (runSql (chars "select 1") none false 0 true ⟨none, none, none, none, none⟩
          [(0, some (chars "select 1\nx\n1 row selected"))] 2026 10 12 (chars "t1")
          (chars "/w") true [] []).dirs
        (runSql (chars "select 1") none false 0 true ⟨none, none, none, none, none⟩
          [(0, some (chars "select 1\nx\n1 row selected"))] 2026 10 12 (chars "t1")
          (chars "/w") true [] []).files).dirs =
      (runSql (chars "select 1") none false 0 true ⟨none, none, none, none, none⟩
        [(0, some (chars "select 1\nx\n1 row selected"))] 2026 10 12 (chars "t1")
        (chars "/w") true [] []).dirs :=
  (claim_C8 (chars "select 1") (chars "select 2") none none false false 0 0
    ⟨none, none, none, none, none⟩ ⟨none, none, none, none, none⟩
    [(0, some (chars "select 1\nx\n1 row selected"))]
    [(0, some (chars "select 2\ny\n1 row selected"))]
    (chars "select 1\nx\n1 row selected") (chars "select 2\ny\n1 row selected")
    ExitKind.marker ExitKind.marker 2026 10 12 (chars "t1") (chars "t2") (chars "/w")
    [] [] (by decide) (by decide)).2.2.2.2

end Pybee
